import Mathlib

/-!
Verification of the backup-server core against its specification.

The definitions below are a shallow embedding of the Rust sources of the
`backup-agent` and `backup-server-rs` crates: pure logic is translated to
Lean functions, filesystem and network effects are abstracted into explicit
oracle parameters, and the concurrent progress pipeline is modelled as an
explicit interleaving of atomic actions on a shared state.
-/

namespace BackupSpec

/-! ## Agent executor: weighted concurrency (backup-agent/src/executor/mod.rs) -/

/-- Total permit budget of the upload semaphore (`CONCURRENCY_BUDGET`). -/
def CONCURRENCY_BUDGET : Nat := 64

/-- Number of semaphore permits a file acquires based on its size, mirroring
`concurrency_weight` and its byte-range match arms. -/
def concurrency_weight (file_size : Nat) : Nat :=
  if file_size ≤ 10485759 then 1
  else if file_size ≤ 104857599 then 2
  else if file_size ≤ 524287999 then 16
  else if file_size ≤ 1073741823 then 32
  else 64

/-! ## Agent executor: per-file upload request construction (`upload_file`) -/

/-- Files of at least this many bytes are sent without compression
(`MAX_COMPRESS_SIZE = 500 * 1024 * 1024`). -/
def MAX_COMPRESS_SIZE : Nat := 500 * 1024 * 1024

/-- Shape of the HTTP request built by `upload_file`: the header list and
whether the body stream is wrapped in the zstd encoder. -/
structure UploadRequest where
  headers : List (String × String)
  compressed : Bool
  deriving Repr, DecidableEq

/-- Request construction in `upload_file`: `use_compression = size < MAX_COMPRESS_SIZE`;
the compressed branch adds the `content-encoding: zstd` header and wraps the
stream in `ZstdEncoder`, the other branch sends the raw byte stream. -/
def buildUploadRequest (job_id : String) (relative_path : String) (size : Nat) :
    UploadRequest :=
  let use_compression := size < MAX_COMPRESS_SIZE
  if use_compression then
    { headers := [("x-job-id", job_id), ("x-relative-path", relative_path),
                  ("x-total-size", toString size), ("content-encoding", "zstd")],
      compressed := true }
  else
    { headers := [("x-job-id", job_id), ("x-relative-path", relative_path),
                  ("x-total-size", toString size)],
      compressed := false }

/-! ## Server hardlink endpoint (backup-server-rs/src/routes/files.rs, `create_hardlinks`) -/

/-- One iteration of the linking loop in `create_hardlinks`: a path whose
source is missing in the previous snapshot increments `failed`; otherwise
`hard_link` is attempted, incrementing `linked` on success and `failed` on
error. Filesystem outcomes are abstracted by the `srcExists` and `linkOk`
oracles. -/
def hardlinkStep (srcExists : String → Bool) (linkOk : String → Bool)
    (acc : Nat × Nat) (rel_path : String) : Nat × Nat :=
  if !srcExists rel_path then (acc.1, acc.2 + 1)
  else if linkOk rel_path then (acc.1 + 1, acc.2)
  else (acc.1, acc.2 + 1)

/-- The linking loop of `create_hardlinks`: folds `hardlinkStep` over the
requested relative paths starting from `(linked, failed) = (0, 0)`. -/
def create_hardlinks (srcExists : String → Bool) (linkOk : String → Bool)
    (files : List String) : Nat × Nat :=
  files.foldl (hardlinkStep srcExists linkOk) (0, 0)

/-! ## Manifest and diff engine
(backup-agent/src/executor/manifest.rs and executor/mod.rs) -/

/-- Metadata for a single file in the manifest (`ManifestEntry`). -/
structure ManifestEntry where
  size : Nat
  mtime : Int
  deriving Repr, DecidableEq

/-- Backup manifest (`Manifest`); the `files` HashMap is modelled as an
association list whose keys are the relative paths. -/
structure Manifest where
  version : Nat
  job_id : String
  files : List (String × ManifestEntry)
  total_files : Nat
  total_bytes : Nat
  deriving Repr, DecidableEq

/-- Lookup in the manifest map (`manifest.files.get(&rel)`). -/
def Manifest.get (m : Manifest) (k : String) : Option ManifestEntry :=
  (m.files.find? (fun p => p.1 == k)).map (·.2)

/-- Scan record emitted by the walker (`FileInfo` in fs/walker.rs). -/
structure FileInfo where
  path : String
  relative_path : String
  size : Nat
  is_dir : Bool
  is_symlink : Bool
  depth : Nat
  deriving Repr, DecidableEq

/-- Result of diffing scanned files against a manifest (`DiffResult`). -/
structure DiffResult where
  changed_files : List FileInfo
  changed_bytes : Nat
  unchanged_paths : List String
  unchanged_bytes : Nat
  deleted_count : Nat
  deriving Repr, DecidableEq

/-- Mutable state of the loop in `diff_files_against_manifest`: the four
accumulators plus the `seen_paths` HashSet (modelled as a list whose
membership is the set). -/
structure DiffAcc where
  changed_files : List FileInfo
  changed_bytes : Nat
  unchanged_paths : List String
  unchanged_bytes : Nat
  seen_paths : List String
  deriving Repr, DecidableEq

/-- Loop body of `diff_files_against_manifest`, iterated over `all_files`.
The `mtime` read from the source filesystem (`std::fs::metadata(..).mtime()`
with `unwrap_or(0)`) is abstracted by the oracle `fsMtime` on the absolute
path. -/
def diffLoop (fsMtime : String → Int) (m : Manifest) :
    List FileInfo → DiffAcc → DiffAcc
  | [], acc => acc
  | f :: rest, acc =>
    let rel := f.relative_path
    let acc1 := { acc with seen_paths := rel :: acc.seen_paths }
    match m.get rel with
    | some entry =>
      if entry.size == f.size && entry.mtime == fsMtime f.path then
        diffLoop fsMtime m rest
          { acc1 with unchanged_paths := acc1.unchanged_paths ++ [rel],
                      unchanged_bytes := acc1.unchanged_bytes + f.size }
      else
        diffLoop fsMtime m rest
          { acc1 with changed_files := acc1.changed_files ++ [f],
                      changed_bytes := acc1.changed_bytes + f.size }
    | none =>
      diffLoop fsMtime m rest
        { acc1 with changed_files := acc1.changed_files ++ [f],
                    changed_bytes := acc1.changed_bytes + f.size }

/-- The diff engine `diff_files_against_manifest`: runs the loop from empty
accumulators, then counts the manifest keys that were not seen during the
scan as deleted. -/
def diff_files_against_manifest (fsMtime : String → Int)
    (all_files : List FileInfo) (m : Manifest) : DiffResult :=
  let acc := diffLoop fsMtime m all_files ⟨[], 0, [], 0, []⟩
  { changed_files := acc.changed_files,
    changed_bytes := acc.changed_bytes,
    unchanged_paths := acc.unchanged_paths,
    unchanged_bytes := acc.unchanged_bytes,
    deleted_count :=
      ((m.files.map Prod.fst).filter (fun k => !acc.seen_paths.contains k)).length }

/-- Specification predicate for C1, written from the claim: the manifest has
an entry for the file's relative path whose size equals the file's size and
whose mtime equals the file's source mtime. -/
def specUnchanged (fsMtime : String → Int) (m : Manifest) (f : FileInfo) : Bool :=
  match m.get f.relative_path with
  | some entry => entry.size == f.size && entry.mtime == fsMtime f.path
  | none => false

/-! ## Backup executor counters (executor/mod.rs, `BackupExecutor::execute`) -/

/-- Counter update performed by one upload task after `upload_file` returns:
on success (`Ok(bytes)`, where `bytes` is the file size) the task adds its
bytes to `completed_bytes` and 1 to `completed_files`; on error it only adds
1 to `completed_files` so progress does not stall. The pair is
`(completed_bytes, completed_files)`; the outcome is `some size` for a
successful upload and `none` for a failed one. -/
def uploadTaskCounterUpdate (counters : Nat × Nat) (outcome : Option Nat) :
    Nat × Nat :=
  match outcome with
  | some bytes => (counters.1 + bytes, counters.2 + 1)
  | none => (counters.1, counters.2 + 1)

/-- Final values of the `completed_bytes`/`completed_files` atomics once all
spawned upload tasks have been joined: one counter update per changed file.
Success of an individual upload is abstracted by the `success` oracle. -/
def finalCounters (success : FileInfo → Bool) (changed : List FileInfo) :
    Nat × Nat :=
  (changed.map (fun f => if success f then some f.size else none)).foldl
    uploadTaskCounterUpdate (0, 0)

/-- Payload of the `backup:completed` event (`WsEvent::BackupCompleted`). -/
structure BackupCompletedEvent where
  job_id : String
  total_bytes : Nat
  total_files : Nat
  transferred_bytes : Nat
  transferred_files : Nat
  unchanged_files : Nat
  unchanged_bytes : Nat
  deleted_files : Nat
  backup_type : String
  deriving Repr, DecidableEq

/-- The `backup:completed` event assembled at the end of `execute` for an
incremental run whose diff succeeded: `total_files`/`total_bytes` come from
the scan, `transferred_bytes`/`transferred_files` are the final atomics, and
the unchanged/deleted figures come from the diff. -/
def backupCompletedEvent (fsMtime : String → Int) (success : FileInfo → Bool)
    (job_id : String) (all_files : List FileInfo) (m : Manifest) :
    BackupCompletedEvent :=
  let d := diff_files_against_manifest fsMtime all_files m
  let final := finalCounters success d.changed_files
  { job_id := job_id,
    total_bytes := (all_files.map (·.size)).sum,
    total_files := all_files.length,
    transferred_bytes := final.1,
    transferred_files := final.2,
    unchanged_files := d.unchanged_paths.length,
    unchanged_bytes := d.unchanged_bytes,
    deleted_files := d.deleted_count,
    backup_type := "incremental" }

/-- Number of changed files whose upload failed during a run. -/
def uploadFailures (fsMtime : String → Int) (success : FileInfo → Bool)
    (all_files : List FileInfo) (m : Manifest) : Nat :=
  (diff_files_against_manifest fsMtime all_files m).changed_files.countP
    (fun f => !success f)

/-! ## Retention (backup-server-rs/src/services/agent_orchestrator.rs,
`cleanup_old_versions`) -/

/-- Snapshot/version record (`backup_version` row). The
`%Y-%m-%d_%H-%M-%S` timestamp strings compare lexicographically in
chronological order, so the totally ordered timestamp domain is modelled by
`Nat`. -/
structure BackupVersion where
  id : String
  job_id : String
  version_timestamp : Nat
  local_path : String
  status : String
  deriving Repr, DecidableEq

/-- Comparator of `cleanup_old_versions`:
`completed.sort_by(|a, b| b.version_timestamp.cmp(&a.version_timestamp))`
sorts by timestamp descending. -/
def versionDesc (a b : BackupVersion) : Prop :=
  b.version_timestamp ≤ a.version_timestamp

instance : DecidableRel versionDesc := fun a b =>
  inferInstanceAs (Decidable (b.version_timestamp ≤ a.version_timestamp))

instance : IsTotal BackupVersion versionDesc :=
  ⟨fun a b => le_total b.version_timestamp a.version_timestamp⟩

instance : IsTrans BackupVersion versionDesc :=
  ⟨fun _ _ _ h1 h2 => le_trans h2 h1⟩

/-- Retention pass `cleanup_old_versions`: filter the job's versions to the
completed ones, sort them descending by timestamp (Rust's `sort_by` and
insertion sort are both stable, hence agree), keep the newest `max_versions`
and delete the rest from metadata (their directory trees are then removed on
a detached thread). Returns (remaining version rows, deleted version rows). -/
def cleanup_old_versions (versions : List BackupVersion) (max_versions : Nat) :
    List BackupVersion × List BackupVersion :=
  let completed := versions.filter (fun v => v.status == "completed")
  if completed.length ≤ max_versions then (versions, [])
  else
    let sorted := List.insertionSort versionDesc completed
    let to_delete := sorted.drop max_versions
    (versions.filter (fun v => !((to_delete.map (·.id)).contains v.id)),
     to_delete)

/-! ## Upload intake (backup-server-rs/src/routes/files.rs, `upload_file`) -/

/-- Headers of an upload request as read by the `upload_file` handler.
`x_total_size` is `none` when the header is absent or fails to parse as a
decimal byte count. -/
structure UploadHeaders where
  x_job_id : Option String
  x_relative_path : Option String
  x_total_size : Option Nat
  content_encoding : Option String
  deriving Repr, DecidableEq

/-- Outcome of the upload intake handler: a bad-request rejection carrying
its message, or a success response after writing the decoded body at the
destination path. -/
inductive UploadOutcome where
  | badRequest (msg : String)
  | ok (dest : String) (size : Nat)
  deriving Repr, DecidableEq

/-- Destination base directory chosen by `upload_file`: the `local_path` of
the job's running version if one exists, otherwise the fallback directory
`backups_dir.join(job_id)`. `versions` is the job's version rows
(`backup_version::find_by_job_id`). -/
def uploadBaseDir (versions : List BackupVersion) (backups_dir : String)
    (job_id : String) : String :=
  match versions.find? (fun v => v.status == "running") with
  | some v => v.local_path
  | none => backups_dir ++ "/" ++ job_id

/-- The `upload_file` handler: validate headers, choose the base directory,
write the (possibly zstd-decoded) body to `base/relative_path`, then stat the
destination and reject on a length mismatch. `bodyLen` is the number of bytes
of the decoded body actually written to the destination. -/
def upload_file (h : UploadHeaders) (versions : List BackupVersion)
    (backups_dir : String) (bodyLen : Nat) : UploadOutcome :=
  match h.x_job_id with
  | none => .badRequest "Missing x-job-id header"
  | some job_id =>
    match h.x_relative_path with
    | none => .badRequest "Missing x-relative-path header"
    | some relative_path =>
      match h.x_total_size with
      | none => .badRequest "Missing or invalid x-total-size header"
      | some total_size =>
        let base_dir := uploadBaseDir versions backups_dir job_id
        let dest_path := base_dir ++ "/" ++ relative_path
        if bodyLen ≠ total_size then
          .badRequest ("File size mismatch: expected " ++ toString total_size ++
            " got " ++ toString bodyLen)
        else
          .ok dest_path total_size

/-! ## Agent registry (backup-server-rs/src/ws/agent_registry.rs) -/

/-- Registry state: the registered agent sessions (`server_id` together with
whether the session's outbound sink still accepts messages) and the ids of
the pending correlated requests (`pending_requests` keys; the one-shot
senders themselves carry no further state relevant here). -/
structure RegistryState where
  agents : List (String × Bool)
  pending : List String
  deriving Repr, DecidableEq

/-- The `send_to_agent` primitive: true iff an entry for `server_id` exists
and its sink accepted the message. -/
def send_to_agent (st : RegistryState) (server_id : String) : Bool :=
  match st.agents.find? (fun p => p.1 == server_id) with
  | some p => p.2
  | none => false

/-- The `resolve_request` primitive: remove and consume the responder slot if
present (delivering the response), otherwise do nothing. Returns the new
pending table and whether a slot was consumed. -/
def resolve_request (pending : List String) (request_id : String) :
    List String × Bool :=
  if pending.contains request_id then (pending.erase request_id, true)
  else (pending, false)

/-- How one correlated request terminates: the matching response frame
arrives on the socket, the awaited one-shot channel reports cancellation, or
the timeout elapses first. -/
inductive ReqOutcome where
  | response (v : String)
  | cancelled
  | timedOut
  deriving Repr, DecidableEq

/-- Result of `request_from_agent` as seen by the caller. -/
inductive ReqResult where
  | ok (v : String)
  | err (msg : String)
  deriving Repr, DecidableEq

/-- The `request_from_agent` primitive: store the freshly minted
`request_id` in the pending table, dispatch through `send_to_agent`; if the
sink rejected the message, remove the slot and fail synchronously; otherwise
the response arrives (the socket handler calls `resolve_request`, which
consumes the slot, and the awaited channel yields the value), or the channel
is cancelled, or the timeout fires — the failure arms remove the slot
themselves. Returns the final registry state and the result. -/
def request_from_agent (st : RegistryState) (server_id : String)
    (request_id : String) (outcome : ReqOutcome) : RegistryState × ReqResult :=
  let st1 : RegistryState := { st with pending := request_id :: st.pending }
  if !send_to_agent st1 server_id then
    ({ st1 with pending := st1.pending.erase request_id },
     .err "Agent not connected")
  else
    match outcome with
    | .response v =>
      ({ st1 with pending := (resolve_request st1.pending request_id).1 }, .ok v)
    | .cancelled =>
      ({ st1 with pending := st1.pending.erase request_id },
       .err "Agent request cancelled")
    | .timedOut =>
      ({ st1 with pending := st1.pending.erase request_id },
       .err "Agent request timed out")

/-! ## Walker (backup-agent/src/fs/walker.rs) -/

/-- Resolution of a symlink at scan time (`std::fs::metadata` on the link
path inside `FileInfo::from_entry`). -/
inductive SymlinkTarget where
  | toFile (size : Nat)
  | toDir
  | broken
  deriving Repr, DecidableEq

/-- A filesystem tree as traversed by `walkdir` with `follow_links(false)`. -/
inductive FsTree where
  | file (name : String) (size : Nat)
  | symlink (name : String) (target : SymlinkTarget)
  | dir (name : String) (children : List FsTree)

/-- Substring test used by `should_exclude`: Rust `str::contains(pattern)`. -/
def nameMatches (name : String) (pattern : String) : Bool :=
  decide (pattern.toList <:+: name.toList)

/-- The exclusion test `should_exclude`: the entry's file name contains some
exclusion pattern as a substring. -/
def should_exclude (name : String) (patterns : List String) : Bool :=
  patterns.any (fun p => nameMatches name p)

/-- Path join for building `path` and `relative_path` of walked entries; the
relative path of an entry directly under the root is its own name. -/
def joinPath (parent name : String) : String :=
  if parent == "" then name else parent ++ "/" ++ name

mutual

/-- Processing of one `walkdir` entry by the loop in `walk_directory`: an
entry whose name matches an exclusion pattern is skipped via `continue`, a
directory entry is skipped, and `FileInfo::from_entry` emits regular files
and symlinks that resolve to files. The `walkdir` iterator descends into a
directory's children regardless of the consuming loop's `continue`, so the
directory arm recurses unconditionally and emits nothing itself. -/
def walkTree (patterns : List String) (abs rel : String) (depth : Nat) :
    FsTree → List FileInfo
  | .file name size =>
    if should_exclude name patterns then []
    else [{ path := joinPath abs name, relative_path := joinPath rel name,
            size := size, is_dir := false, is_symlink := false, depth := depth }]
  | .symlink name target =>
    if should_exclude name patterns then []
    else
      match target with
      | .toFile size =>
        [{ path := joinPath abs name, relative_path := joinPath rel name,
           size := size, is_dir := false, is_symlink := true, depth := depth }]
      | .toDir => []
      | .broken => []
  | .dir name children =>
    walkForest patterns (joinPath abs name) (joinPath rel name) (depth + 1)
      children

/-- Traversal of sibling entries in order. -/
def walkForest (patterns : List String) (abs rel : String) (depth : Nat) :
    List FsTree → List FileInfo
  | [] => []
  | t :: ts =>
    walkTree patterns abs rel depth t ++ walkForest patterns abs rel depth ts

end

/-- The `walk_directory` entry point on a root: `walkdir` yields the root
itself at depth 0 (a directory root emits nothing and is descended into; its
children are at depth 1 with relative paths stripped of the root prefix). -/
def walk_directory (root : FsTree) (patterns : List String) : List FileInfo :=
  match root with
  | .dir name children => walkForest patterns name "" 1 children
  | .file name size =>
    if should_exclude name patterns then []
    else [{ path := name, relative_path := "", size := size, is_dir := false,
            is_symlink := false, depth := 0 }]
  | .symlink name target =>
    if should_exclude name patterns then []
    else
      match target with
      | .toFile size =>
        [{ path := name, relative_path := "", size := size, is_dir := false,
           is_symlink := true, depth := 0 }]
      | .toDir => []
      | .broken => []

/-! ## Progress pipeline (executor/mod.rs progress task and upload tasks,
transfer/progress_stream.rs) -/

/-- Shared state of one backup's progress pipeline: the `completed_bytes`
and `completed_files` atomics, the in-flight map `active_files`
(task index ↦ transferred bytes of that file), and the
`(transferred_bytes, files_processed)` fields of the `backup:progress`
events emitted so far. -/
structure ProgState where
  completedBytes : Nat
  completedFiles : Nat
  active : List (Nat × Nat)
  events : List (Nat × Nat)
  deriving Repr, DecidableEq

/-- Atomic actions whose interleaving makes up one backup's execution. Each
upload task performs, in order: `register`, a monotone series of `report`s
(the `ProgressStream` callback stores its cumulative byte counter),
`unregister` (removal from the in-flight map after `upload_file` returns),
then `creditOk size` on success or `creditErr` on failure (the counter
update arms). The progress task interleaves `tick` actions. -/
inductive ProgAction where
  | register (idx : Nat)
  | report (idx : Nat) (bytes : Nat)
  | unregister (idx : Nat)
  | creditOk (size : Nat)
  | creditErr
  | tick
  deriving Repr, DecidableEq

/-- Effect of one atomic action on the shared state. A `tick` emits a
progress event whose transferred-bytes field is
`completed_bytes + Σ in-flight transferred` and whose files-processed field
is `completed_files`, as computed by the progress task. -/
def applyProgAction (s : ProgState) : ProgAction → ProgState
  | .register idx => { s with active := s.active ++ [(idx, 0)] }
  | .report idx bytes =>
    { s with active := s.active.map (fun p => if p.1 == idx then (p.1, bytes) else p) }
  | .unregister idx => { s with active := s.active.filter (fun p => p.1 != idx) }
  | .creditOk size =>
    { s with completedBytes := s.completedBytes + size,
             completedFiles := s.completedFiles + 1 }
  | .creditErr => { s with completedFiles := s.completedFiles + 1 }
  | .tick =>
    { s with events := s.events ++
        [(s.completedBytes + (s.active.map (·.2)).sum, s.completedFiles)] }

/-- A whole run of the pipeline from the initial state. -/
def runProgress (trace : List ProgAction) : ProgState :=
  trace.foldl applyProgAction ⟨0, 0, [], []⟩

/-- The claimed ordering guarantee: both completed-work fields never
decrease from one emitted event to the next. -/
def eventsMonotone (evs : List (Nat × Nat)) : Prop :=
  List.Chain' (fun a b => a.1 ≤ b.1 ∧ a.2 ≤ b.2) evs

end BackupSpec

namespace BackupSpec

/-! ## Theorems for claims C8, C9, C10 -/

/-- C8: the weight function is monotone non-decreasing in the file size and
bounded in the interval [1, 64] (the whole semaphore budget). -/
theorem concurrency_weight_monotone_bounded :
    (∀ s1 s2 : Nat, s1 ≤ s2 → concurrency_weight s1 ≤ concurrency_weight s2) ∧
    (∀ s : Nat, 1 ≤ concurrency_weight s ∧ concurrency_weight s ≤ CONCURRENCY_BUDGET) := by
  constructor
  · intro s1 s2 h
    unfold concurrency_weight
    split_ifs <;> omega
  · intro s
    unfold concurrency_weight CONCURRENCY_BUDGET
    split_ifs <;> omega

/-- Witness for C8 at concrete sizes. -/
theorem concurrency_weight_monotone_bounded_witness :
    concurrency_weight 512000 ≤ concurrency_weight 2000000000 ∧
    1 ≤ concurrency_weight 2000000000 := by
  refine ⟨concurrency_weight_monotone_bounded.1 512000 2000000000 (by decide), ?_⟩
  exact (concurrency_weight_monotone_bounded.2 2000000000).1

/-- C9: the zstd-compressed transfer path (encoder wrapped around the stream
together with the `content-encoding: zstd` header) is taken exactly when the
file size is strictly below 500 MB = 524288000 bytes; a file of exactly
500 MB is sent raw. -/
theorem upload_compression_iff_below_500mb :
    (∀ job rel size, ((buildUploadRequest job rel size).compressed = true ∧
        ("content-encoding", "zstd") ∈ (buildUploadRequest job rel size).headers) ↔
        size < 524288000) ∧
    (∀ job rel, (buildUploadRequest job rel 524288000).compressed = false ∧
        ("content-encoding", "zstd") ∉ (buildUploadRequest job rel 524288000).headers) := by
  constructor
  · intro job rel size
    unfold buildUploadRequest MAX_COMPRESS_SIZE
    by_cases h : size < 500 * 1024 * 1024
    · simp only [if_pos h]
      simp
      omega
    · simp only [if_neg h]
      simp
      omega
  · intro job rel
    unfold buildUploadRequest MAX_COMPRESS_SIZE
    constructor
    · norm_num
    · intro hmem
      norm_num at hmem
      simp at hmem

/-- Helper: the diff loop appends, to the incoming accumulators, exactly the
files failing the unchanged test, the relative paths of the files passing it,
and marks exactly the scanned relative paths as seen. -/
theorem diffLoop_cons_unchanged (fsMtime : String → Int) (m : Manifest)
    (f : FileInfo) (rest : List FileInfo) (acc : DiffAcc) (entry : ManifestEntry)
    (hget : m.get f.relative_path = some entry)
    (hcond : (entry.size == f.size && entry.mtime == fsMtime f.path) = true) :
    diffLoop fsMtime m (f :: rest) acc =
      diffLoop fsMtime m rest
        { acc with unchanged_paths := acc.unchanged_paths ++ [f.relative_path],
                   unchanged_bytes := acc.unchanged_bytes + f.size,
                   seen_paths := f.relative_path :: acc.seen_paths } := by
  simp [diffLoop, hget, hcond]

theorem diffLoop_cons_changed_mismatch (fsMtime : String → Int) (m : Manifest)
    (f : FileInfo) (rest : List FileInfo) (acc : DiffAcc) (entry : ManifestEntry)
    (hget : m.get f.relative_path = some entry)
    (hcond : (entry.size == f.size && entry.mtime == fsMtime f.path) = false) :
    diffLoop fsMtime m (f :: rest) acc =
      diffLoop fsMtime m rest
        { acc with changed_files := acc.changed_files ++ [f],
                   changed_bytes := acc.changed_bytes + f.size,
                   seen_paths := f.relative_path :: acc.seen_paths } := by
  simp [diffLoop, hget, hcond]

theorem diffLoop_cons_changed_new (fsMtime : String → Int) (m : Manifest)
    (f : FileInfo) (rest : List FileInfo) (acc : DiffAcc)
    (hget : m.get f.relative_path = none) :
    diffLoop fsMtime m (f :: rest) acc =
      diffLoop fsMtime m rest
        { acc with changed_files := acc.changed_files ++ [f],
                   changed_bytes := acc.changed_bytes + f.size,
                   seen_paths := f.relative_path :: acc.seen_paths } := by
  simp [diffLoop, hget]

theorem diffLoop_characterization (fsMtime : String → Int) (m : Manifest)
    (files : List FileInfo) (acc : DiffAcc) :
    (diffLoop fsMtime m files acc).changed_files =
      acc.changed_files ++ files.filter (fun f => !specUnchanged fsMtime m f) ∧
    (diffLoop fsMtime m files acc).unchanged_paths =
      acc.unchanged_paths ++
        (files.filter (specUnchanged fsMtime m)).map (·.relative_path) ∧
    (∀ k, (diffLoop fsMtime m files acc).seen_paths.contains k =
      (acc.seen_paths.contains k || (files.map (·.relative_path)).contains k)) := by
  induction files generalizing acc with
  | nil => simp [diffLoop]
  | cons f rest ih =>
    cases hget : m.get f.relative_path with
    | some entry =>
      cases hcond : entry.size == f.size && entry.mtime == fsMtime f.path with
      | true =>
        have hs : specUnchanged fsMtime m f = true := by
          simp [specUnchanged, hget, hcond]
        rw [diffLoop_cons_unchanged fsMtime m f rest acc entry hget hcond]
        obtain ⟨h1, h2, h3⟩ := ih
          { acc with unchanged_paths := acc.unchanged_paths ++ [f.relative_path],
                     unchanged_bytes := acc.unchanged_bytes + f.size,
                     seen_paths := f.relative_path :: acc.seen_paths }
        refine ⟨?_, ?_, ?_⟩
        · rw [h1]; simp [hs]
        · rw [h2]; simp [hs]
        · intro k; rw [h3 k]
          simp [List.contains_cons, Bool.or_comm, Bool.or_left_comm, Bool.or_assoc]
      | false =>
        have hs : specUnchanged fsMtime m f = false := by
          simp [specUnchanged, hget]
          simpa using hcond
        rw [diffLoop_cons_changed_mismatch fsMtime m f rest acc entry hget hcond]
        obtain ⟨h1, h2, h3⟩ := ih
          { acc with changed_files := acc.changed_files ++ [f],
                     changed_bytes := acc.changed_bytes + f.size,
                     seen_paths := f.relative_path :: acc.seen_paths }
        refine ⟨?_, ?_, ?_⟩
        · rw [h1]; simp [hs]
        · rw [h2]; simp [hs]
        · intro k; rw [h3 k]
          simp [List.contains_cons, Bool.or_comm, Bool.or_left_comm, Bool.or_assoc]
    | none =>
      have hs : specUnchanged fsMtime m f = false := by simp [specUnchanged, hget]
      rw [diffLoop_cons_changed_new fsMtime m f rest acc hget]
      obtain ⟨h1, h2, h3⟩ := ih
        { acc with changed_files := acc.changed_files ++ [f],
                   changed_bytes := acc.changed_bytes + f.size,
                   seen_paths := f.relative_path :: acc.seen_paths }
      refine ⟨?_, ?_, ?_⟩
      · rw [h1]; simp [hs]
      · rw [h2]; simp [hs]
      · intro k; rw [h3 k]
        simp [List.contains_cons, Bool.or_comm, Bool.or_left_comm, Bool.or_assoc]

/-- C1: the diff classifies a scanned file as unchanged exactly when the
prior manifest holds an entry for its relative path with equal size and equal
source mtime, classifies every other scanned file as changed, and the deleted
count equals the number of manifest paths not seen during the scan. -/
theorem diff_files_against_manifest_correct (fsMtime : String → Int)
    (all_files : List FileInfo) (m : Manifest) :
    (diff_files_against_manifest fsMtime all_files m).changed_files =
      all_files.filter (fun f => !specUnchanged fsMtime m f) ∧
    (diff_files_against_manifest fsMtime all_files m).unchanged_paths =
      (all_files.filter (specUnchanged fsMtime m)).map (·.relative_path) ∧
    (diff_files_against_manifest fsMtime all_files m).deleted_count =
      ((m.files.map Prod.fst).filter
        (fun k => !((all_files.map (·.relative_path)).contains k))).length := by
  obtain ⟨h1, h2, h3⟩ :=
    diffLoop_characterization fsMtime m all_files ⟨[], 0, [], 0, []⟩
  refine ⟨?_, ?_, ?_⟩
  · simpa [diff_files_against_manifest] using h1
  · simpa [diff_files_against_manifest] using h2
  · show ((m.files.map Prod.fst).filter
        (fun k => !(diffLoop fsMtime m all_files ⟨[], 0, [], 0, []⟩).seen_paths.contains k)).length = _
    congr 1
    apply List.filter_congr
    intro k _
    rw [h3 k]
    simp

/-- Helper: each upload task increments the file counter exactly once,
whether its upload succeeded or failed. -/
theorem finalCounters_files (success : FileInfo → Bool) (changed : List FileInfo) :
    (finalCounters success changed).2 = changed.length := by
  unfold finalCounters
  have key : ∀ (l : List (Option Nat)) (acc : Nat × Nat),
      (l.foldl uploadTaskCounterUpdate acc).2 = acc.2 + l.length := by
    intro l
    induction l with
    | nil => intro acc; simp
    | cons o rest ih =>
      intro acc
      simp only [List.foldl_cons, ih]
      cases o <;> simp [uploadTaskCounterUpdate] <;> omega
  simp [key]

/-- One concrete scanned input used to refute C2 as stated. -/
def c2File : FileInfo :=
  { path := "/data/a.txt", relative_path := "a.txt", size := 5,
    is_dir := false, is_symlink := false, depth := 1 }

/-- An empty prior manifest. -/
def c2Manifest : Manifest :=
  { version := 1, job_id := "job1", files := [], total_files := 0,
    total_bytes := 0 }

/-- C2 counterexample: with one scanned file, an empty prior manifest and a
failing upload, `transferred_files = 1` (the error arm of the counter update
also increments the file counter), `unchanged_files = 0`,
`file_upload_failures = 1`, but `files_total = 1`; the claimed identity
`files_transferred + files_unchanged + file_upload_failures = files_total`
fails. -/
theorem backup_counters_claim_false :
    ¬ ((backupCompletedEvent (fun _ => 0) (fun _ => false) "job1" [c2File]
          c2Manifest).transferred_files +
       (backupCompletedEvent (fun _ => 0) (fun _ => false) "job1" [c2File]
          c2Manifest).unchanged_files +
       uploadFailures (fun _ => 0) (fun _ => false) [c2File] c2Manifest =
       (backupCompletedEvent (fun _ => 0) (fun _ => false) "job1" [c2File]
          c2Manifest).total_files) := by
  decide

/-- C2 amended: for every incremental run,
`files_transferred + files_unchanged = files_total` (hence in particular
`files_transferred + files_unchanged ≤ files_total`), because the counter
carried as `transferred_files` counts every processed changed file whether or
not its upload succeeded; the originally claimed identity with
`file_upload_failures` added holds exactly when no upload failed. -/
theorem backup_counters_amended (fsMtime : String → Int)
    (success : FileInfo → Bool) (job_id : String) (all_files : List FileInfo)
    (m : Manifest) :
    (backupCompletedEvent fsMtime success job_id all_files m).transferred_files +
      (backupCompletedEvent fsMtime success job_id all_files m).unchanged_files =
      (backupCompletedEvent fsMtime success job_id all_files m).total_files ∧
    (backupCompletedEvent fsMtime success job_id all_files m).transferred_files +
      (backupCompletedEvent fsMtime success job_id all_files m).unchanged_files ≤
      (backupCompletedEvent fsMtime success job_id all_files m).total_files ∧
    ((backupCompletedEvent fsMtime success job_id all_files m).transferred_files +
      (backupCompletedEvent fsMtime success job_id all_files m).unchanged_files +
      uploadFailures fsMtime success all_files m =
      (backupCompletedEvent fsMtime success job_id all_files m).total_files ↔
      uploadFailures fsMtime success all_files m = 0) := by
  obtain ⟨h1, h2, _⟩ := diff_files_against_manifest_correct fsMtime all_files m
  have hmain :
      (backupCompletedEvent fsMtime success job_id all_files m).transferred_files +
        (backupCompletedEvent fsMtime success job_id all_files m).unchanged_files =
        (backupCompletedEvent fsMtime success job_id all_files m).total_files := by
    show (finalCounters success
        (diff_files_against_manifest fsMtime all_files m).changed_files).2 +
        (diff_files_against_manifest fsMtime all_files m).unchanged_paths.length =
        all_files.length
    rw [finalCounters_files, h1, h2]
    simp only [List.length_map]
    have := List.length_eq_countP_add_countP (specUnchanged fsMtime m) all_files
    rw [← List.countP_eq_length_filter, ← List.countP_eq_length_filter]
    have hco : List.countP (fun f => !specUnchanged fsMtime m f) all_files =
        List.countP (fun a => decide ¬specUnchanged fsMtime m a = true) all_files := by
      apply List.countP_congr
      intro a _
      cases specUnchanged fsMtime m a <;> simp
    omega
  refine ⟨hmain, le_of_eq hmain, ?_⟩
  omega

/-- Helper: branch equation of the retention pass when the completed count
does not exceed the bound. -/
theorem cleanup_old_versions_eq_small (versions : List BackupVersion)
    (max_versions : Nat)
    (h : (versions.filter (fun v => v.status == "completed")).length ≤ max_versions) :
    cleanup_old_versions versions max_versions = (versions, []) := by
  simp [cleanup_old_versions, h]

/-- Helper: branch equation of the retention pass when there are more
completed versions than the bound. -/
theorem cleanup_old_versions_eq_large (versions : List BackupVersion)
    (max_versions : Nat)
    (h : ¬ (versions.filter (fun v => v.status == "completed")).length ≤ max_versions) :
    cleanup_old_versions versions max_versions =
      (versions.filter (fun v =>
        !((((List.insertionSort versionDesc
              (versions.filter (fun v => v.status == "completed"))).drop
                max_versions).map (·.id)).contains v.id)),
       (List.insertionSort versionDesc
          (versions.filter (fun v => v.status == "completed"))).drop max_versions) := by
  simp [cleanup_old_versions, h]

/-- C3: after the retention pass at a completed run, at most `max_versions`
completed version rows remain in metadata; the deleted rows are exactly the
entries at index ≥ `max_versions` of the completed rows sorted descending by
timestamp; and every deleted snapshot is no newer than any completed snapshot
that remains. -/
theorem cleanup_old_versions_retention (versions : List BackupVersion)
    (max_versions : Nat) :
    ((cleanup_old_versions versions max_versions).1.filter
        (fun v => v.status == "completed")).length ≤ max_versions ∧
    (cleanup_old_versions versions max_versions).2 =
      (List.insertionSort versionDesc
        (versions.filter (fun v => v.status == "completed"))).drop max_versions ∧
    (∀ d ∈ (cleanup_old_versions versions max_versions).2,
     ∀ k ∈ (cleanup_old_versions versions max_versions).1,
       k.status = "completed" → d.version_timestamp ≤ k.version_timestamp) := by
  by_cases hle : (versions.filter (fun v => v.status == "completed")).length ≤ max_versions
  · rw [cleanup_old_versions_eq_small versions max_versions hle]
    refine ⟨hle, ?_, ?_⟩
    · symm
      apply List.drop_eq_nil_of_le
      rw [List.length_insertionSort]
      exact hle
    · intro d hd
      simp at hd
  · rw [cleanup_old_versions_eq_large versions max_versions hle]
    set completed := versions.filter (fun v => v.status == "completed") with hcompleted
    set sorted := List.insertionSort versionDesc completed with hsorted
    set del := sorted.drop max_versions with hdel
    have hsplit : sorted.take max_versions ++ del = sorted :=
      List.take_append_drop max_versions sorted
    have hDdel : ∀ d ∈ del, ((del.map (·.id)).contains d.id) = true := by
      intro d hd
      simp
      exact ⟨d, hd, rfl⟩
    refine ⟨?_, rfl, ?_⟩
    · rw [List.filter_filter]
      rw [← List.countP_eq_length_filter]
      have hswap : List.countP
          (fun v => (v.status == "completed") && !((del.map (·.id)).contains v.id))
          versions =
          List.countP (fun v => !((del.map (·.id)).contains v.id)) completed := by
        rw [hcompleted, List.countP_filter]
        apply List.countP_congr
        intro a _
        cases ha : a.status == "completed" <;>
          cases hb : (del.map (·.id)).contains a.id <;> simp [ha, hb]
      rw [hswap]
      have hperm : List.countP (fun v => !((del.map (·.id)).contains v.id)) completed =
          List.countP (fun v => !((del.map (·.id)).contains v.id)) sorted := by
        exact ((List.perm_insertionSort versionDesc completed).countP_eq _).symm
      rw [hperm, ← hsplit, List.countP_append]
      have hzero : List.countP (fun v => !((del.map (·.id)).contains v.id)) del = 0 := by
        rw [List.countP_eq_zero]
        intro d hd
        simp
        exact ⟨d, hd, rfl⟩
      rw [hzero]
      calc List.countP (fun v => !((del.map (·.id)).contains v.id))
            (sorted.take max_versions) + 0
          ≤ (sorted.take max_versions).length + 0 := by
            exact Nat.add_le_add_right (List.countP_le_length _) 0
        _ ≤ max_versions := by
            rw [Nat.add_zero]
            exact le_trans (List.length_take_le _ _) (le_refl _)
    · intro d hd k hk hkc
      have hk' := List.mem_filter.mp hk
      have hkD : ((del.map (·.id)).contains k.id) = false := by
        have := hk'.2
        cases hb : (del.map (·.id)).contains k.id
        · rfl
        · rw [hb] at this; simp at this
      have hkcomp : k ∈ completed := by
        rw [hcompleted]
        exact List.mem_filter.mpr ⟨hk'.1, by simp [hkc]⟩
      have hksorted : k ∈ sorted :=
        ((List.perm_insertionSort versionDesc completed).mem_iff).mpr hkcomp
      have hktake : k ∈ sorted.take max_versions := by
        rw [← hsplit] at hksorted
        rcases List.mem_append.mp hksorted with h | h
        · exact h
        · exact absurd (hDdel k h) (by rw [hkD]; simp)
      have hpair : List.Pairwise versionDesc sorted :=
        List.sorted_insertionSort versionDesc completed
      rw [← hsplit] at hpair
      have := (List.pairwise_append.mp hpair).2.2 k hktake d hd
      exact this

/-- Witness for C3 at a concrete metadata state: a job with four completed
snapshots and retention 3 keeps at most three completed rows, and the deleted
snapshot is no newer than a surviving one. -/
theorem cleanup_old_versions_retention_witness :
    ((cleanup_old_versions
        [⟨"v1", "j", 1, "/b/versions/1", "completed"⟩,
         ⟨"v2", "j", 2, "/b/versions/2", "completed"⟩,
         ⟨"v3", "j", 3, "/b/versions/3", "completed"⟩,
         ⟨"v4", "j", 4, "/b/versions/4", "completed"⟩] 3).1.filter
        (fun v => v.status == "completed")).length ≤ 3 ∧
    (⟨"v1", "j", 1, "/b/versions/1", "completed"⟩ : BackupVersion).version_timestamp ≤
      (⟨"v4", "j", 4, "/b/versions/4", "completed"⟩ : BackupVersion).version_timestamp := by
  refine ⟨(cleanup_old_versions_retention _ 3).1, ?_⟩
  exact (cleanup_old_versions_retention
    [⟨"v1", "j", 1, "/b/versions/1", "completed"⟩,
     ⟨"v2", "j", 2, "/b/versions/2", "completed"⟩,
     ⟨"v3", "j", 3, "/b/versions/3", "completed"⟩,
     ⟨"v4", "j", 4, "/b/versions/4", "completed"⟩] 3).2.2
    ⟨"v1", "j", 1, "/b/versions/1", "completed"⟩ (by decide)
    ⟨"v4", "j", 4, "/b/versions/4", "completed"⟩ (by decide) (by decide)

/-- C4 counterexample: a well-formed upload for a job whose only version row
is `completed` (so no `running` snapshot exists) is not rejected — the
handler falls back to `backups_dir/<job_id>` as the base directory and
accepts the upload, writing the file there. -/
theorem upload_no_running_claim_false :
    upload_file ⟨some "job1", some "a.txt", some 3, none⟩
      [⟨"v1", "job1", 1, "/backups/job1/versions/1", "completed"⟩]
      "/backups" 3 =
      UploadOutcome.ok "/backups/job1/a.txt" 3 := by
  decide

/-- C4 amended: with all required headers present, the handler writes under
the running snapshot's `local_path` when one exists; when no running snapshot
exists it does not reject but writes under the fallback base
`backups_dir/<job_id>`; in both cases the only bad-request outcome at this
point is a size mismatch between the written body and `x-total-size`. -/
theorem upload_file_base_amended (job rel : String) (ts : Nat)
    (enc : Option String) (versions : List BackupVersion)
    (backups_dir : String) (bodyLen : Nat) :
    (versions.find? (fun v => v.status == "running") = none →
      upload_file ⟨some job, some rel, some ts, enc⟩ versions backups_dir bodyLen =
        if bodyLen ≠ ts then
          .badRequest ("File size mismatch: expected " ++ toString ts ++
            " got " ++ toString bodyLen)
        else .ok (backups_dir ++ "/" ++ job ++ "/" ++ rel) ts) ∧
    (∀ v, versions.find? (fun v => v.status == "running") = some v →
      upload_file ⟨some job, some rel, some ts, enc⟩ versions backups_dir bodyLen =
        if bodyLen ≠ ts then
          .badRequest ("File size mismatch: expected " ++ toString ts ++
            " got " ++ toString bodyLen)
        else .ok (v.local_path ++ "/" ++ rel) ts) := by
  constructor
  · intro hnone
    simp [upload_file, uploadBaseDir, hnone]
  · intro v hsome
    simp [upload_file, uploadBaseDir, hsome]

/-- Witness for C4's amended statement at a concrete state with a running
snapshot and at one without. -/
theorem upload_file_base_amended_witness :
    upload_file ⟨some "job1", some "a.txt", some 3, none⟩
      [⟨"v2", "job1", 2, "/backups/job1/versions/2", "running"⟩]
      "/backups" 3 =
      UploadOutcome.ok "/backups/job1/versions/2/a.txt" 3 := by
  have h := (upload_file_base_amended "job1" "a.txt" 3 none
    [⟨"v2", "job1", 2, "/backups/job1/versions/2", "running"⟩] "/backups" 3).2
    ⟨"v2", "job1", 2, "/backups/job1/versions/2", "running"⟩ (by decide)
  simpa using h

/-- C7: every correlated request leaves the pending table as it found it —
the responder slot inserted for the request is removed in all three terminal
outcomes (sink rejection, response, cancellation/timeout); the result is the
response value exactly in the response outcome and the matching error
otherwise; and `resolve_request` on an unknown id, or a second time on the
same id, is a no-op. -/
theorem request_from_agent_terminal (st : RegistryState)
    (server_id request_id : String) (outcome : ReqOutcome) :
    ((request_from_agent st server_id request_id outcome).1.pending =
      st.pending) ∧
    (send_to_agent st server_id = false →
      (request_from_agent st server_id request_id outcome).2 =
        .err "Agent not connected") ∧
    (send_to_agent st server_id = true →
      (∀ v, outcome = .response v →
        (request_from_agent st server_id request_id outcome).2 = .ok v) ∧
      (outcome = .cancelled →
        (request_from_agent st server_id request_id outcome).2 =
          .err "Agent request cancelled") ∧
      (outcome = .timedOut →
        (request_from_agent st server_id request_id outcome).2 =
          .err "Agent request timed out")) ∧
    (∀ (pending : List String) (rid : String), rid ∉ pending →
      resolve_request pending rid = (pending, false)) ∧
    (∀ (pending : List String) (rid : String), pending.Nodup →
      resolve_request (resolve_request pending rid).1 rid =
        ((resolve_request pending rid).1, false)) := by
  have hsend : send_to_agent { st with pending := request_id :: st.pending }
      server_id = send_to_agent st server_id := rfl
  have herase : (request_id :: st.pending).erase request_id = st.pending := by
    simp [List.erase_cons_head]
  have hresolved : (resolve_request (request_id :: st.pending) request_id).1 =
      st.pending := by
    simp [resolve_request, herase]
  refine ⟨?_, ?_, ?_, ?_, ?_⟩
  · cases hs : send_to_agent st server_id
    · simp [request_from_agent, hsend, hs, herase]
    · cases outcome <;> simp [request_from_agent, hsend, hs, herase, hresolved]
  · intro hs
    simp [request_from_agent, hsend, hs]
  · intro hs
    refine ⟨?_, ?_, ?_⟩
    · intro v hv
      subst hv
      simp [request_from_agent, hsend, hs]
    · intro hv
      subst hv
      simp [request_from_agent, hsend, hs]
    · intro hv
      subst hv
      simp [request_from_agent, hsend, hs]
  · intro pending rid hmem
    unfold resolve_request
    have : pending.contains rid = false := by
      cases hb : pending.contains rid
      · rfl
      · exact absurd (by simpa using hb) hmem
    simp [this, hmem]
  · intro pending rid hnd
    by_cases hmem : rid ∈ pending
    · have h1 : resolve_request pending rid = (pending.erase rid, true) := by
        simp [resolve_request, hmem]
      rw [h1]
      have hout : rid ∉ pending.erase rid := by
        intro hc
        exact (List.Nodup.not_mem_erase hnd) hc
      have : (pending.erase rid).contains rid = false := by
        cases hb : (pending.erase rid).contains rid
        · rfl
        · exact absurd (by simpa using hb) hout
      simp [resolve_request, this, hout]
    · have h1 : resolve_request pending rid = (pending, false) := by
        have : pending.contains rid = false := by
          cases hb : pending.contains rid
          · rfl
          · exact absurd (by simpa using hb) hmem
        simp [resolve_request, this, hmem]
      rw [h1]
      exact h1

/-- Witness for C7 at a concrete registry state, covering the timeout
outcome and a duplicate resolve. -/
theorem request_from_agent_terminal_witness :
    (request_from_agent ⟨[("srv1", true)], ["r0"]⟩ "srv1" "r1"
        ReqOutcome.timedOut).1.pending = ["r0"] ∧
    (request_from_agent ⟨[("srv1", true)], ["r0"]⟩ "srv1" "r1"
        ReqOutcome.timedOut).2 = .err "Agent request timed out" ∧
    resolve_request (resolve_request ["r0"] "r0").1 "r0" =
      ((resolve_request ["r0"] "r0").1, false) := by
  obtain ⟨h1, _, h3, _, h5⟩ :=
    request_from_agent_terminal ⟨[("srv1", true)], ["r0"]⟩ "srv1" "r1"
      ReqOutcome.timedOut
  exact ⟨h1, (h3 (by decide)).2.2 rfl, h5 ["r0"] "r0" (by decide)⟩

/-- C5: evaluation of the walk at the failing input. With exclusion pattern
"node_modules", the walk of a root containing the directory `node_modules`
with the file `a.js` inside still emits a FileInfo for
`node_modules/a.js`: the `continue` in the walk loop skips only the matching
entry itself (which, being a directory, yields no FileInfo anyway), while
`walkdir` descends into the excluded directory regardless, contradicting the
claim that no FileInfo is emitted for any descendant of an excluded
directory. -/
theorem walk_directory_emits_descendant_of_excluded_dir :
    walk_directory
      (.dir "root" [.dir "node_modules" [.file "a.js" 3], .file "b.txt" 2])
      ["node_modules"] =
      [{ path := "root/node_modules/a.js",
         relative_path := "node_modules/a.js", size := 3, is_dir := false,
         is_symlink := false, depth := 2 },
       { path := "root/b.txt", relative_path := "b.txt", size := 2,
         is_dir := false, is_symlink := false, depth := 1 }] := by
  decide

/-- C6 counterexample: a realizable interleaving in which an upload fails
after its partial progress was already included in an emitted event — the
task registers, reports 5 transferred bytes, a tick emits
`transferred_bytes = 5`; the upload then fails, the task unregisters and
takes the error arm (`completed_bytes` untouched), and the next tick emits
`transferred_bytes = 0 < 5`. The emitted sequence is not monotone in the
transferred-bytes field. -/
theorem progress_bytes_monotone_claim_false :
    ¬ eventsMonotone (runProgress
      [.register 0, .report 0 5, .tick, .unregister 0, .creditErr,
       .tick]).events := by
  intro h
  have hev : (runProgress
      [.register 0, .report 0 5, .tick, .unregister 0, .creditErr,
       .tick]).events = [(5, 0), (0, 1)] := by decide
  rw [hev] at h
  rw [eventsMonotone, List.chain'_cons] at h
  exact absurd h.1.1 (by decide)

/-- Helper invariant for C6: every prefix of a run keeps the emitted
files-processed values monotone and bounded by the current
`completed_files` counter. -/
theorem progress_files_invariant (trace : List ProgAction) (s : ProgState)
    (h1 : List.Chain' (fun a b : Nat × Nat => a.2 ≤ b.2) s.events)
    (h2 : ∀ e ∈ s.events, e.2 ≤ s.completedFiles) :
    List.Chain' (fun a b : Nat × Nat => a.2 ≤ b.2)
      (trace.foldl applyProgAction s).events ∧
    (∀ e ∈ (trace.foldl applyProgAction s).events,
      e.2 ≤ (trace.foldl applyProgAction s).completedFiles) := by
  induction trace generalizing s with
  | nil => exact ⟨h1, h2⟩
  | cons a rest ih =>
    simp only [List.foldl_cons]
    cases a with
    | register idx => exact ih _ h1 h2
    | report idx bytes => exact ih _ h1 h2
    | unregister idx => exact ih _ h1 h2
    | creditOk size =>
      refine ih _ ?_ ?_
      · exact h1
      · intro e he
        have he' : e ∈ s.events := he
        exact le_trans (h2 e he') (Nat.le_succ _)
    | creditErr =>
      refine ih _ ?_ ?_
      · exact h1
      · intro e he
        have he' : e ∈ s.events := he
        exact le_trans (h2 e he') (Nat.le_succ _)
    | tick =>
      refine ih _ ?_ ?_
      · show List.Chain' _ (s.events ++
          [(s.completedBytes + (s.active.map (·.2)).sum, s.completedFiles)])
        rw [List.chain'_append]
        refine ⟨h1, List.chain'_singleton _, ?_⟩
        intro x hx y hy
        simp only [List.head?_cons, Option.mem_def, Option.some.injEq] at hy
        subst hy
        exact h2 x (List.mem_of_mem_getLast? hx)
      · intro e he
        have he' : e ∈ s.events ++
            [(s.completedBytes + (s.active.map (·.2)).sum, s.completedFiles)] := he
        show e.2 ≤ s.completedFiles
        rcases List.mem_append.mp he' with h | h
        · exact h2 e h
        · have he2 : e = (s.completedBytes + (s.active.map (·.2)).sum,
              s.completedFiles) := List.mem_singleton.mp h
          subst he2
          exact le_refl _

/-- C6 amended: inside one backup the emitted `backup:progress` events are
monotone non-decreasing in the files-processed field for every interleaving
of the upload tasks with the progress task; the transferred-bytes field is
not monotone in general (see the counterexample: a failed upload's in-flight
bytes leave the total). -/
theorem progress_files_monotone (trace : List ProgAction) :
    List.Chain' (fun a b : Nat × Nat => a.2 ≤ b.2)
      (runProgress trace).events := by
  exact (progress_files_invariant trace ⟨0, 0, [], []⟩ (by simp) (by simp)).1

/-- C10: the response counters of the hardlink loop partition the request:
`linked + failed` equals the number of requested paths, `failed` counts
exactly the paths whose source is missing or whose `hard_link` call errors,
and `linked` counts the rest. -/
theorem create_hardlinks_partition (srcExists linkOk : String → Bool)
    (files : List String) :
    (create_hardlinks srcExists linkOk files).1 +
      (create_hardlinks srcExists linkOk files).2 = files.length ∧
    (create_hardlinks srcExists linkOk files).1 =
      files.countP (fun r => srcExists r && linkOk r) ∧
    (create_hardlinks srcExists linkOk files).2 =
      files.countP (fun r => !(srcExists r && linkOk r)) := by
  have key : ∀ (fs : List String) (acc : Nat × Nat),
      fs.foldl (hardlinkStep srcExists linkOk) acc =
        (acc.1 + fs.countP (fun r => srcExists r && linkOk r),
         acc.2 + fs.countP (fun r => !(srcExists r && linkOk r))) := by
    intro fs
    induction fs with
    | nil => intro acc; simp
    | cons r rest ih =>
      intro acc
      simp only [List.foldl_cons, ih, hardlinkStep]
      by_cases hs : srcExists r
      · by_cases hl : linkOk r
        · simp [hs, hl, List.countP_cons]
          omega
        · simp [hs, hl, List.countP_cons]
          omega
      · simp [hs, List.countP_cons]
        omega
  have h := key files (0, 0)
  unfold create_hardlinks
  rw [h]
  refine ⟨?_, by simp, by simp⟩
  simp [List.length_eq_countP_add_countP (fun r => srcExists r && linkOk r) files]

end BackupSpec
